import Mathlib

/-!
Shallow embedding of the vision core of the ClashRoyaleBotV2 repository
(`src/vision/vision_system.py`, `src/core/game_states.py`).

Images are modelled as dimension records over an integer-valued pixel
function (uint8 intensities are integers, and every OpenCV operation the
code uses — `cvtColor`, `GaussianBlur` on `CV_8U` data, and the sums inside
`matchTemplate` — rounds to integers or is an integer sum).  Template
matching (`cv2.matchTemplate` with `TM_CCOEFF_NORMED` followed by
`cv2.minMaxLoc`) is embedded exactly: the score at an alignment is the real
number `nccNum / Real.sqrt (nccA * nccB)` where `nccNum`, `nccA`, `nccB`
are the integer denominator-cleared mean-centred sums (the lemmas
`nccNum_eq_centered`, `nccA_eq_centered`, `nccB_eq_centered` below prove
these equal `T.h * T.w` times the textbook mean-centred sums, so the score
is literally OpenCV's documented formula; vanishing variances follow
OpenCV's guarded handling: a zero-variance template makes the whole result
matrix 1 — the `templNorm < DBL_EPSILON` early return sets
`result = Scalar::all(1)` — while a zero-variance window under a
non-constant template scores 0).  The comparisons the code performs on scores are
embedded as computable integer predicates `scoreGe` and `scoreGt`, proved
to agree with the real-valued comparisons in `scoreGe_iff` and
`scoreGt_iff`.
-/

/-- A single-channel (grayscale) image: a height × width grid of integer
intensities, as used for templates and preprocessed screens. -/
structure Img where
  h : Nat
  w : Nat
  px : Nat → Nat → ℤ

/-- A full-colour captured frame in BGR channel order (`px i j = (B, G, R)`),
as produced by the external capture layer. -/
structure Frame where
  h : Nat
  w : Nat
  px : Nat → Nat → ℤ × ℤ × ℤ

/-- Round-half-up division `⌊a / b + 1/2⌋` for `b > 0`, the rounding OpenCV
applies when storing fixed-point results into `uint8` pixels. -/
def rdiv (a b : ℤ) : ℤ := Int.fdiv (2 * a + b) (2 * b)

/-- OpenCV's default `BORDER_REFLECT_101` index reflection
(`gfedcb|abcdefgh|gfedcba`), in closed form via the period `2*n - 2`. -/
def reflect101 (n : Nat) (i : Int) : Nat :=
  if n ≤ 1 then 0
  else
    let p : Int := 2 * (n : Int) - 2
    let r : Int := i % p
    if r < (n : Int) then r.toNat else (p - r).toNat

/-- The fixed 5-tap Gaussian kernel OpenCV uses for `GaussianBlur` with
`ksize = (5,5)` and `sigma = 0`, scaled by 16: `[1,4,6,4,1]`. -/
def gauss5 : Nat → ℤ
  | 0 => 1
  | 1 => 4
  | 2 => 6
  | 3 => 4
  | _ => 1

/-- `cv2.cvtColor(image, COLOR_BGR2GRAY)`: `Y = 0.299 R + 0.587 G + 0.114 B`,
rounded to the nearest integer intensity. -/
def bgr2gray (f : Frame) : Img :=
  { h := f.h
    w := f.w
    px := fun i j =>
      rdiv (299 * (f.px i j).2.2 + 587 * (f.px i j).2.1 + 114 * (f.px i j).1) 1000 }

/-- `cv2.GaussianBlur(gray, (5,5), 0)` with the default reflected border:
the 5×5 separable convolution with kernel `[1,4,6,4,1]/16` in each
direction (total weight 256), rounded per output pixel. -/
def gaussianBlur5 (g : Img) : Img :=
  { h := g.h
    w := g.w
    px := fun i j =>
      rdiv ((Finset.range 5).sum (fun a => (Finset.range 5).sum (fun b =>
        gauss5 a * gauss5 b *
          g.px (reflect101 g.h ((i : Int) + (a : Int) - 2))
               (reflect101 g.w ((j : Int) + (b : Int) - 2))))) 256 }

/-- `VisionSystem._preprocess_image`: grayscale conversion followed by a
5×5 Gaussian blur. -/
def preprocessImage (image_np : Frame) : Img := gaussianBlur5 (bgr2gray image_np)

/-- Sum of `f i j` over the `h × w` index grid. -/
def sum2 (h w : Nat) (f : Nat → Nat → ℤ) : ℤ :=
  ((Finset.range h) ×ˢ (Finset.range w)).sum (fun p => f p.1 p.2)

/-- The number of template pixels. -/
def area (T : Img) : ℤ := (T.h : ℤ) * (T.w : ℤ)

/-- Sum of the template's intensities. -/
def sumT (T : Img) : ℤ := sum2 T.h T.w T.px

/-- Sum of the squares of the template's intensities. -/
def sumTT (T : Img) : ℤ := sum2 T.h T.w (fun i j => T.px i j ^ 2)

/-- Sum of the search-image intensities over the template-sized window with
top-left corner at alignment `(x, y)`. -/
def sumP (S T : Img) (x y : Nat) : ℤ :=
  sum2 T.h T.w (fun i j => S.px (y + i) (x + j))

/-- Sum of the squares of the window's intensities. -/
def sumPP (S T : Img) (x y : Nat) : ℤ :=
  sum2 T.h T.w (fun i j => S.px (y + i) (x + j) ^ 2)

/-- Inner product of the template with the window. -/
def sumTP (S T : Img) (x y : Nat) : ℤ :=
  sum2 T.h T.w (fun i j => T.px i j * S.px (y + i) (x + j))

/-- Denominator-cleared numerator of the `TM_CCOEFF_NORMED` score at
alignment `(x, y)`: `area T` times the inner product of the mean-centred
template with the mean-centred window (see `nccNum_eq_centered`). -/
def nccNum (S T : Img) (x y : Nat) : ℤ :=
  area T * sumTP S T x y - sumT T * sumP S T x y

/-- Denominator-cleared window variance term: `area T` times the sum of
squared deviations of the window from its mean (see `nccA_eq_centered`). -/
def nccA (S T : Img) (x y : Nat) : ℤ :=
  area T * sumPP S T x y - sumP S T x y ^ 2

/-- Denominator-cleared template variance term: `area T` times the sum of
squared deviations of the template from its mean (see `nccB_eq_centered`). -/
def nccB (T : Img) : ℤ := area T * sumTT T - sumT T ^ 2

/-- The square of the (denominator-cleared) `TM_CCOEFF_NORMED` denominator
at `(x, y)`. -/
def nccD (S T : Img) (x y : Nat) : ℤ := nccA S T x y * nccB T

/-- Decides `threshold ≤ n / Real.sqrt d` for a non-constant template,
where `d` is the product of the window and template variance terms (the
score is `0` when the window is flat, i.e. `d = 0`), by sign analysis and
squaring, entirely in integer arithmetic.  Proved correct in
`scoreGeD_iff`. -/
def scoreGeD (n d : ℤ) (t : ℚ) : Bool :=
  if d = 0 then decide (t.num ≤ 0)
  else if 0 < t.num then decide (0 < n) && decide (t.num ^ 2 * d ≤ (t.den : ℤ) ^ 2 * n ^ 2)
  else decide (0 ≤ n) || decide ((t.den : ℤ) ^ 2 * n ^ 2 ≤ t.num ^ 2 * d)

/-- Decides `threshold ≤ score` for the `TM_CCOEFF_NORMED` score with
window variance term `a` and template variance term `b`.  When the
template variance vanishes OpenCV sets the entire result matrix to 1
(the `templNorm < DBL_EPSILON` early return), so the score is 1 and the
test is `threshold ≤ 1`, i.e. `t.num ≤ t.den`; otherwise the score is the
flat-window-guarded `n / Real.sqrt (a * b)`.  Proved correct in
`scoreGe_iff`. -/
def scoreGe (n a b : ℤ) (t : ℚ) : Bool :=
  if b = 0 then decide (t.num ≤ (t.den : ℤ))
  else scoreGeD n (a * b) t

/-- Effective numerator for a non-constant template: the score is `0`
whenever the window variance (hence the denominator `d`) vanishes. -/
def effNum (n d : ℤ) : ℤ := if d = 0 then 0 else n

/-- Decides `n2 / Real.sqrt d2 < n1 / Real.sqrt d1` for a non-constant
template (scores `0` when a window is flat) in integer arithmetic.
Proved correct in `scoreGtD_iff`. -/
def scoreGtD (n1 d1 n2 d2 : ℤ) : Bool :=
  if 0 < effNum n1 d1 then
    decide (effNum n2 d2 ≤ 0) ||
      (decide (0 < effNum n2 d2) && decide (effNum n2 d2 ^ 2 * d1 < effNum n1 d1 ^ 2 * d2))
  else if effNum n1 d1 = 0 then decide (effNum n2 d2 < 0)
  else decide (effNum n2 d2 < 0) && decide (effNum n1 d1 ^ 2 * d2 < effNum n2 d2 ^ 2 * d1)

/-- All valid alignments of template `T` within search image `S`, listed in
the row-major order in which `cv2.minMaxLoc` scans the result matrix
(outer loop over rows `y`, inner loop over columns `x`); an alignment is
recorded as `(x, y)` as in `max_loc`. -/
def alignments (S T : Img) : List (Nat × Nat) :=
  (List.range (S.h - T.h + 1)).flatMap (fun y =>
    (List.range (S.w - T.w + 1)).map (fun x => (x, y)))

/-- Decides `score2 < score1` for two alignments of the same template
(window variance terms `a1`, `a2`, shared template variance term `b`).
With a zero-variance template every alignment scores 1, so no strict
inequality ever holds; otherwise compare the flat-window-guarded scores.
Proved correct in `scoreGt_iff`. -/
def scoreGt (n1 a1 n2 a2 b : ℤ) : Bool :=
  if b = 0 then false else scoreGtD n1 (a1 * b) n2 (a2 * b)

/-- One step of the `minMaxLoc` maximum scan: keep the current best unless
the new alignment scores strictly higher (so ties keep the earliest
alignment in scan order). -/
def stepMax (S T : Img) (best p : Nat × Nat) : Nat × Nat :=
  if scoreGt (nccNum S T p.1 p.2) (nccA S T p.1 p.2)
             (nccNum S T best.1 best.2) (nccA S T best.1 best.2) (nccB T)
  then p else best

/-- `cv2.minMaxLoc` on the `TM_CCOEFF_NORMED` result: the first alignment
attaining the maximal score in row-major scan order. -/
def bestLoc (S T : Img) : Nat × Nat :=
  (alignments S T).foldl (stepMax S T) (0, 0)

/-- `VisionSystem._find_template`: `None` guards, size guard, template
matching, and the threshold test on the maximal score; on success returns
the template centre `max_loc + template_dimensions // 2`. -/
def findTemplate (screen_image_gray : Option Img) (template : Option Img)
    (threshold : ℚ) : Option (Nat × Nat) :=
  match screen_image_gray, template with
  | none, _ => none
  | _, none => none
  | some s, some t =>
    if t.h > s.h ∨ t.w > s.w then none
    else
      let best := bestLoc s t
      if scoreGe (nccNum s t best.1 best.2) (nccA s t best.1 best.2) (nccB t) threshold
      then some (best.1 + t.w / 2, best.2 + t.h / 2)
      else none

/-- The threshold `0.7` used by the game-state rules (given in normalised
`num/den` form so that it evaluates; `rat07_eq` checks it equals `7/10`). -/
def rat07 : ℚ := ⟨7, 10, by decide, by decide⟩

/-- The threshold `0.8` used by `get_card_coordinates` (`rat08_eq` checks
it equals `8/10`). -/
def rat08 : ℚ := ⟨4, 5, by decide, by decide⟩

/-- The threshold `0.85` used for card and enemy-unit detection
(`rat085_eq` checks it equals `85/100`). -/
def rat085 : ℚ := ⟨17, 20, by decide, by decide⟩

/-- `core/game_states.py`: the `GameState` enumeration. -/
inductive GameState where
  | INITIALIZING
  | ON_MENU
  | IN_BATTLE
  | POST_GAME
  | STOPPED
deriving DecidableEq

/-- The state of a `VisionSystem` instance: the latest captured screenshot
and the three template namespaces (each a `dict` in the source, embedded as
an association list preserving iteration order). -/
structure VisionSystem where
  latest_screenshot : Option Frame
  card_templates : List (String × Img)
  ui_templates : List (String × Img)
  enemy_unit_templates : List (String × Img)

/-- `dict.get`: lookup in a template namespace. -/
def tget (store : List (String × Img)) (key : String) : Option Img :=
  (store.find? (fun p => decide (p.1 = key))).map (fun p => p.2)

/-- The player-hand region of interest, `(left, top, right, bottom)`. -/
def hand_roi : Nat × Nat × Nat × Nat := (50, 1050, 670, 1230)

/-- The battlefield region of interest, `(left, top, right, bottom)`. -/
def battlefield_roi : Nat × Nat × Nat × Nat := (0, 150, 720, 1000)

/-- The enemy-field region of interest: same left, top and right as the
battlefield, bottom at the battlefield's top plus half the battlefield
height (integer division) plus a fixed 50-pixel downward overlap. -/
def enemy_field_roi : Nat × Nat × Nat × Nat :=
  (battlefield_roi.1, battlefield_roi.2.1, battlefield_roi.2.2.1,
   battlefield_roi.2.1 + (battlefield_roi.2.2.2 - battlefield_roi.2.1) / 2 + 50)

/-- One rule of `get_current_game_state`: look the template up in the UI
namespace; if present, report whether `_find_template` at threshold 0.7
returns a position (a returned tuple is truthy in the source). -/
def ruleHit (ui : List (String × Img)) (processed : Img) (name : String) : Bool :=
  match tget ui name with
  | some t => (findTemplate (some processed) (some t) rat07).isSome
  | none => false

/-- `VisionSystem.get_current_game_state`: stores the raw frame as the
latest screenshot, preprocesses it, and tries the four UI rules in order
(battle indicator → `IN_BATTLE`, play button → `ON_MENU`, ok button →
`POST_GAME`, home button → `ON_MENU`), defaulting to `IN_BATTLE`. -/
def get_current_game_state (vs : VisionSystem) (image_np : Frame) :
    GameState × VisionSystem :=
  let vs' := { vs with latest_screenshot := some image_np }
  let processed_screen := preprocessImage image_np
  ((if ruleHit vs.ui_templates processed_screen "Battle Indicator" then GameState.IN_BATTLE
    else if ruleHit vs.ui_templates processed_screen "Play Button" then GameState.ON_MENU
    else if ruleHit vs.ui_templates processed_screen "OK Button" then GameState.POST_GAME
    else if ruleHit vs.ui_templates processed_screen "Home Button" then GameState.ON_MENU
    else GameState.IN_BATTLE), vs')

/-- One detected card in hand (`elixir_cost` and `card_type` are the
source's placeholder values). -/
structure DetectedCard where
  name : String
  position : Nat × Nat
  elixir_cost : ℤ
  card_type : String
deriving DecidableEq

/-- One detected opponent unit (`health` and `unit_type` are the source's
placeholder values). -/
structure DetectedUnit where
  name : String
  position : Nat × Nat
  health : ℤ
  unit_type : String
deriving DecidableEq

/-- The `game_info` dictionary returned by `analyze_battlefield`
(`current_elixir` is the source's placeholder `10.0`, kept exact as a
rational). -/
structure GameInfo where
  player_units : List DetectedUnit
  opponent_units : List DetectedUnit
  cards_in_hand : List DetectedCard
  current_elixir : ℚ
  player_tower_health : ℤ × ℤ × ℤ
  opponent_tower_health : ℤ × ℤ × ℤ
  game_time_seconds : ℤ

/-- NumPy slice `g[max(0,y0):min(h,y1), max(0,x0):min(w,x1)]`: the crop of
an image to an ROI with coordinates clamped to the image bounds (an
out-of-range ROI yields an empty image, never an error). -/
def cropImg (g : Img) (x0 y0 x1 y1 : Nat) : Img :=
  { h := min g.h y1 - max 0 y0
    w := min g.w x1 - max 0 x0
    px := fun i j => g.px (max 0 y0 + i) (max 0 x0 + j) }

/-- The hand-ROI crop of the preprocessed frame used for card detection. -/
def handCrop (image_np : Frame) : Img :=
  cropImg (preprocessImage image_np) hand_roi.1 hand_roi.2.1 hand_roi.2.2.1 hand_roi.2.2.2

/-- The enemy-field-ROI crop of the preprocessed frame used for opponent
unit detection. -/
def enemyCrop (image_np : Frame) : Img :=
  cropImg (preprocessImage image_np) enemy_field_roi.1 enemy_field_roi.2.1
    enemy_field_roi.2.2.1 enemy_field_roi.2.2.2

/-- `VisionSystem.analyze_battlefield`: stores the raw frame, preprocesses
it, detects cards in the hand ROI (threshold 0.85, positions remapped to
full-frame coordinates by adding the ROI's top-left offset; an empty crop
yields no cards), detects opponent units in the enemy-field ROI the same
way, and returns the `game_info` record with the source's placeholder
numeric fields. -/
def analyze_battlefield (vs : VisionSystem) (image_np : Frame) :
    GameInfo × VisionSystem :=
  let vs' := { vs with latest_screenshot := some image_np }
  let detected_cards_in_hand : List DetectedCard :=
    if (handCrop image_np).h = 0 ∨ (handCrop image_np).w = 0 then []
    else vs.card_templates.filterMap (fun ct =>
      (findTemplate (some (handCrop image_np)) (some ct.2) rat085).map (fun p =>
        { name := ct.1
          position := (p.1 + hand_roi.1, p.2 + hand_roi.2.1)
          elixir_cost := 3
          card_type := "unit" }))
  let detected_opponent_units : List DetectedUnit :=
    if (enemyCrop image_np).h = 0 ∨ (enemyCrop image_np).w = 0 then []
    else vs.enemy_unit_templates.filterMap (fun ut =>
      (findTemplate (some (enemyCrop image_np)) (some ut.2) rat085).map (fun p =>
        { name := ut.1
          position := (p.1 + enemy_field_roi.1, p.2 + enemy_field_roi.2.1)
          health := 100
          unit_type := "unit" }))
  ({ player_units := []
     opponent_units := detected_opponent_units
     cards_in_hand := detected_cards_in_hand
     current_elixir := 10
     player_tower_health := (3000, 2000, 2000)
     opponent_tower_health := (3000, 2000, 2000)
     game_time_seconds := 60 }, vs')

/-- Python `str.replace('_', ' ')` for the single-character pattern used by
the source: map each underscore to a space. -/
def replaceSep (s : String) : String :=
  String.mk (s.data.map (fun c => if c = '_' then ' ' else c))

/-- Python `str.title()` on the character list: a letter is uppercased when
the previous character is not a letter, lowercased otherwise; other
characters pass through. -/
def pyTitleAux : List Char → Bool → List Char
  | [], _ => []
  | c :: cs, prevAlpha =>
    (if c.isAlpha then (if prevAlpha then c.toLower else c.toUpper) else c)
      :: pyTitleAux cs c.isAlpha

/-- Python `str.title()`. -/
def pyTitle (s : String) : String := String.mk (pyTitleAux s.data false)

/-- The normalized template key `card_name.replace('_', ' ').title()`. -/
def templateKey (card_name : String) : String := pyTitle (replaceSep card_name)

/-- `VisionSystem.get_card_coordinates`: soft-fails when no screenshot has
been captured or no template exists under the normalized name; otherwise
preprocesses the latest screenshot and searches the whole frame at
threshold 0.8. -/
def get_card_coordinates (vs : VisionSystem) (card_name : String) :
    Option (Nat × Nat) :=
  match vs.latest_screenshot with
  | none => none
  | some shot =>
    match tget vs.card_templates (templateKey card_name) with
    | none => none
    | some card_template =>
      findTemplate (some (preprocessImage shot)) (some card_template) rat08

/-- An all-black (zeroed) captured frame. -/
def blankFrame (h w : Nat) : Frame := { h := h, w := w, px := fun _ _ => (0, 0, 0) }

/-- `S` contains an exact, unoccluded copy of `T` with top-left corner at
`(ox, oy)`. -/
def exactCopyAt (S T : Img) (ox oy : Nat) : Prop :=
  oy + T.h ≤ S.h ∧ ox + T.w ≤ S.w ∧
    ∀ i < T.h, ∀ j < T.w, S.px (oy + i) (ox + j) = T.px i j

instance (S T : Img) (ox oy : Nat) : Decidable (exactCopyAt S T ox oy) := by
  unfold exactCopyAt
  exact inferInstance

/-- The threshold constants are the source's decimal literals. -/
theorem rat_thresholds_eq : rat07 = 7/10 ∧ rat08 = 8/10 ∧ rat085 = 85/100 := by
  refine ⟨?_, ?_, ?_⟩ <;>
    norm_num [rat07, rat08, rat085, Rat.mk'_eq_divInt, Rat.divInt_eq_div]

/-! ### Basic facts about the match scores -/

/-- The grid underlying `sum2`. -/
def grid (h w : Nat) : Finset (Nat × Nat) := (Finset.range h) ×ˢ (Finset.range w)

theorem sum2_eq_grid_sum (h w : Nat) (f : Nat → Nat → ℤ) :
    sum2 h w f = (grid h w).sum (fun p => f p.1 p.2) := rfl

theorem grid_card (h w : Nat) : (grid h w).card = h * w := by
  simp [grid, Finset.card_product]

/-- Cauchy–Schwarz with the constant sequence `1`:
`(∑ f)^2 ≤ h*w * ∑ f^2` over the grid. -/
theorem gridCS (h w : Nat) (f : Nat × Nat → ℤ) :
    ((grid h w).sum f) ^ 2 ≤ (h : ℤ) * (w : ℤ) * (grid h w).sum (fun p => f p ^ 2) := by
  have cs := Finset.sum_mul_sq_le_sq_mul_sq (grid h w) f (fun _ => (1 : ℤ))
  simp only [mul_one, one_pow, Finset.sum_const, nsmul_eq_mul] at cs
  calc ((grid h w).sum f) ^ 2
      ≤ ((grid h w).sum fun p => f p ^ 2) * ((grid h w).card : ℤ) := cs
    _ = (h : ℤ) * (w : ℤ) * (grid h w).sum (fun p => f p ^ 2) := by
        rw [grid_card]; push_cast; ring

theorem nccA_nonneg (S T : Img) (x y : Nat) : 0 ≤ nccA S T x y := by
  have h := gridCS T.h T.w (fun p => S.px (y + p.1) (x + p.2))
  have e1 : sumP S T x y = (grid T.h T.w).sum (fun p => S.px (y + p.1) (x + p.2)) := rfl
  have e2 : sumPP S T x y
      = (grid T.h T.w).sum (fun p => S.px (y + p.1) (x + p.2) ^ 2) := rfl
  unfold nccA area
  rw [e1, e2]
  linarith

theorem nccB_nonneg (T : Img) : 0 ≤ nccB T := by
  have h := gridCS T.h T.w (fun p => T.px p.1 p.2)
  have e1 : sumT T = (grid T.h T.w).sum (fun p => T.px p.1 p.2) := rfl
  have e2 : sumTT T = (grid T.h T.w).sum (fun p => T.px p.1 p.2 ^ 2) := rfl
  unfold nccB area
  rw [e1, e2]
  linarith

theorem nccD_nonneg (S T : Img) (x y : Nat) : 0 ≤ nccD S T x y :=
  mul_nonneg (nccA_nonneg S T x y) (nccB_nonneg T)

/-! ### The denominator-cleared sums are `area T` times the textbook
mean-centred sums of `TM_CCOEFF_NORMED` -/

theorem centered_dot (s : Finset (Nat × Nat)) (f g : Nat × Nat → ℚ)
    (hN : ((s.card : ℚ)) ≠ 0) :
    (s.card : ℚ) * s.sum (fun p =>
        (f p - s.sum f / s.card) * (g p - s.sum g / s.card))
      = (s.card : ℚ) * s.sum (fun p => f p * g p) - s.sum f * s.sum g := by
  have h1 : s.sum (fun p =>
        (f p - s.sum f / s.card) * (g p - s.sum g / s.card))
      = s.sum (fun p => f p * g p) - (s.sum g / s.card) * s.sum f
          - (s.sum f / s.card) * s.sum g
          + (s.card : ℚ) * ((s.sum f / s.card) * (s.sum g / s.card)) := by
    have hfun : (fun p => (f p - s.sum f / s.card) * (g p - s.sum g / s.card))
        = fun p => f p * g p - (s.sum g / s.card) * f p
            - (s.sum f / s.card) * g p + (s.sum f / s.card) * (s.sum g / s.card) := by
      funext p; ring
    rw [hfun, Finset.sum_add_distrib, Finset.sum_sub_distrib, Finset.sum_sub_distrib,
        ← Finset.mul_sum, ← Finset.mul_sum, Finset.sum_const, nsmul_eq_mul]
  rw [h1]
  field_simp
  ring

theorem nccNum_eq_centered (S T : Img) (x y : Nat) (hh : T.h ≠ 0) (hw : T.w ≠ 0) :
    ((nccNum S T x y : ℤ) : ℚ) = (area T : ℚ) * (grid T.h T.w).sum (fun p =>
        ((T.px p.1 p.2 : ℚ) - (sumT T : ℚ) / (area T : ℚ)) *
        ((S.px (y + p.1) (x + p.2) : ℚ) - (sumP S T x y : ℚ) / (area T : ℚ))) := by
  have hcard : ((grid T.h T.w).card : ℚ) = (area T : ℚ) := by
    rw [grid_card]; unfold area; push_cast; ring
  have hN : ((grid T.h T.w).card : ℚ) ≠ 0 := by
    rw [hcard]; unfold area
    push_cast
    exact mul_ne_zero (by exact_mod_cast hh) (by exact_mod_cast hw)
  have hfs : ((grid T.h T.w).sum fun p => ((T.px p.1 p.2 : ℚ))) = (sumT T : ℚ) := by
    unfold sumT; rw [sum2_eq_grid_sum]; push_cast; rfl
  have hgs : ((grid T.h T.w).sum fun p => ((S.px (y + p.1) (x + p.2) : ℚ)))
      = (sumP S T x y : ℚ) := by
    unfold sumP; rw [sum2_eq_grid_sum]; push_cast; rfl
  have key := centered_dot (grid T.h T.w) (fun p => (T.px p.1 p.2 : ℚ))
      (fun p => (S.px (y + p.1) (x + p.2) : ℚ)) hN
  rw [hfs, hgs, hcard] at key
  rw [key]
  unfold nccNum sumTP
  rw [sum2_eq_grid_sum]
  push_cast
  rfl

theorem nccA_eq_centered (S T : Img) (x y : Nat) (hh : T.h ≠ 0) (hw : T.w ≠ 0) :
    ((nccA S T x y : ℤ) : ℚ) = (area T : ℚ) * (grid T.h T.w).sum (fun p =>
        ((S.px (y + p.1) (x + p.2) : ℚ) - (sumP S T x y : ℚ) / (area T : ℚ)) ^ 2) := by
  have hcard : ((grid T.h T.w).card : ℚ) = (area T : ℚ) := by
    rw [grid_card]; unfold area; push_cast; ring
  have hN : ((grid T.h T.w).card : ℚ) ≠ 0 := by
    rw [hcard]; unfold area
    push_cast
    exact mul_ne_zero (by exact_mod_cast hh) (by exact_mod_cast hw)
  have hgs : ((grid T.h T.w).sum fun p => ((S.px (y + p.1) (x + p.2) : ℚ)))
      = (sumP S T x y : ℚ) := by
    unfold sumP; rw [sum2_eq_grid_sum]; push_cast; rfl
  have key := centered_dot (grid T.h T.w) (fun p => (S.px (y + p.1) (x + p.2) : ℚ))
      (fun p => (S.px (y + p.1) (x + p.2) : ℚ)) hN
  rw [hgs, hcard] at key
  have hmul : ((grid T.h T.w).sum fun p =>
        ((S.px (y + p.1) (x + p.2) : ℚ)) * ((S.px (y + p.1) (x + p.2) : ℚ)))
      = (grid T.h T.w).sum (fun p => ((S.px (y + p.1) (x + p.2) : ℚ)) ^ 2) := by
    apply Finset.sum_congr rfl
    intro p _
    ring
  have hsq : ((grid T.h T.w).sum fun p =>
        ((S.px (y + p.1) (x + p.2) : ℚ) - (sumP S T x y : ℚ) / (area T : ℚ)) ^ 2)
      = (grid T.h T.w).sum (fun p =>
        ((S.px (y + p.1) (x + p.2) : ℚ) - (sumP S T x y : ℚ) / (area T : ℚ)) *
        ((S.px (y + p.1) (x + p.2) : ℚ) - (sumP S T x y : ℚ) / (area T : ℚ))) := by
    apply Finset.sum_congr rfl
    intro p _
    ring
  rw [hmul] at key
  rw [hsq, key]
  have epp : ((sumPP S T x y : ℤ) : ℚ)
      = (grid T.h T.w).sum (fun p => ((S.px (y + p.1) (x + p.2) : ℚ)) ^ 2) := by
    unfold sumPP; rw [sum2_eq_grid_sum]; push_cast; rfl
  unfold nccA
  push_cast
  rw [epp]
  ring

theorem nccB_eq_centered (T : Img) (hh : T.h ≠ 0) (hw : T.w ≠ 0) :
    ((nccB T : ℤ) : ℚ) = (area T : ℚ) * (grid T.h T.w).sum (fun p =>
        ((T.px p.1 p.2 : ℚ) - (sumT T : ℚ) / (area T : ℚ)) ^ 2) := by
  have hcard : ((grid T.h T.w).card : ℚ) = (area T : ℚ) := by
    rw [grid_card]; unfold area; push_cast; ring
  have hN : ((grid T.h T.w).card : ℚ) ≠ 0 := by
    rw [hcard]; unfold area
    push_cast
    exact mul_ne_zero (by exact_mod_cast hh) (by exact_mod_cast hw)
  have hfs : ((grid T.h T.w).sum fun p => ((T.px p.1 p.2 : ℚ))) = (sumT T : ℚ) := by
    unfold sumT; rw [sum2_eq_grid_sum]; push_cast; rfl
  have key := centered_dot (grid T.h T.w) (fun p => (T.px p.1 p.2 : ℚ))
      (fun p => (T.px p.1 p.2 : ℚ)) hN
  rw [hfs, hcard] at key
  have hmul : ((grid T.h T.w).sum fun p => ((T.px p.1 p.2 : ℚ)) * ((T.px p.1 p.2 : ℚ)))
      = (grid T.h T.w).sum (fun p => ((T.px p.1 p.2 : ℚ)) ^ 2) := by
    apply Finset.sum_congr rfl
    intro p _
    ring
  have hsq : ((grid T.h T.w).sum fun p =>
        ((T.px p.1 p.2 : ℚ) - (sumT T : ℚ) / (area T : ℚ)) ^ 2)
      = (grid T.h T.w).sum (fun p =>
        ((T.px p.1 p.2 : ℚ) - (sumT T : ℚ) / (area T : ℚ)) *
        ((T.px p.1 p.2 : ℚ) - (sumT T : ℚ) / (area T : ℚ))) := by
    apply Finset.sum_congr rfl
    intro p _
    ring
  rw [hmul] at key
  rw [hsq, key]
  have ett : ((sumTT T : ℤ) : ℚ)
      = (grid T.h T.w).sum (fun p => ((T.px p.1 p.2 : ℚ)) ^ 2) := by
    unfold sumTT; rw [sum2_eq_grid_sum]; push_cast; rfl
  unfold nccB
  push_cast
  rw [ett]
  ring

/-! ### The alignment list and the maximum scan -/

theorem mem_alignments (S T : Img) (p : Nat × Nat) :
    p ∈ alignments S T ↔ p.1 < S.w - T.w + 1 ∧ p.2 < S.h - T.h + 1 := by
  cases p with
  | mk x y =>
    simp only [alignments, List.mem_flatMap, List.mem_map, List.mem_range, Prod.mk.injEq]
    constructor
    · rintro ⟨y', hy', x', hx', hxy⟩
      rcases hxy with ⟨rfl, rfl⟩
      exact ⟨hx', hy'⟩
    · rintro ⟨hx, hy⟩
      exact ⟨y, hy, x, hx, rfl, rfl⟩

theorem zero_mem_alignments (S T : Img) : ((0, 0) : Nat × Nat) ∈ alignments S T := by
  rw [mem_alignments]
  exact ⟨Nat.succ_pos _, Nat.succ_pos _⟩

theorem stepMax_eq_or (S T : Img) (b p : Nat × Nat) :
    stepMax S T b p = p ∨ stepMax S T b p = b := by
  unfold stepMax
  split
  · exact Or.inl rfl
  · exact Or.inr rfl

theorem foldl_stepMax_mem (S T : Img) (l : List (Nat × Nat)) (init : Nat × Nat) :
    l.foldl (stepMax S T) init ∈ init :: l := by
  induction l generalizing init with
  | nil => simp
  | cons a l ih =>
    rw [List.foldl_cons]
    rcases List.mem_cons.mp (ih (stepMax S T init a)) with h | h
    · rw [h]
      rcases stepMax_eq_or S T init a with he | he <;> rw [he]
      · exact List.mem_cons_of_mem init (List.mem_cons_self a l)
      · exact List.mem_cons_self init _
    · exact List.mem_cons_of_mem init (List.mem_cons_of_mem a h)

theorem bestLoc_mem (S T : Img) : bestLoc S T ∈ alignments S T := by
  rcases List.mem_cons.mp (foldl_stepMax_mem S T (alignments S T) (0, 0)) with h | h
  · rw [bestLoc, h]
    exact zero_mem_alignments S T
  · exact h

/-! ### The integer score comparisons agree with the real-valued score
comparisons -/

theorem scoreGeD_iff (n d : ℤ) (t : ℚ) (hd : 0 ≤ d) :
    scoreGeD n d t = true ↔
      (t : ℝ) ≤ (if d = 0 then (0 : ℝ) else (n : ℝ) / Real.sqrt (d : ℝ)) := by
  by_cases hd0 : d = 0
  · simp only [scoreGeD, if_pos hd0, decide_eq_true_eq]
    constructor
    · intro h
      have ht : t ≤ 0 := Rat.num_nonpos.mp h
      exact_mod_cast Rat.cast_nonpos.mpr ht
    · intro h
      have ht : t ≤ 0 := by exact_mod_cast h
      exact Rat.num_nonpos.mpr ht
  · have hdpos : (0 : ℤ) < d := lt_of_le_of_ne hd (Ne.symm hd0)
    have hdR : (0 : ℝ) < (d : ℝ) := by exact_mod_cast hdpos
    have hs : (0 : ℝ) < Real.sqrt d := Real.sqrt_pos.mpr hdR
    have hsq : Real.sqrt d ^ 2 = (d : ℝ) := Real.sq_sqrt hdR.le
    have hden : (0 : ℝ) < (t.den : ℝ) := by exact_mod_cast t.den_pos
    rw [if_neg hd0, show ((t : ℝ)) = (t.num : ℝ) / (t.den : ℝ) from Rat.cast_def t,
        div_le_div_iff₀ hden hs]
    unfold scoreGeD
    rw [if_neg hd0]
    by_cases ht : 0 < t.num
    · rw [if_pos ht]
      simp only [Bool.and_eq_true, decide_eq_true_eq]
      have htR : (0 : ℝ) < (t.num : ℝ) := by exact_mod_cast ht
      constructor
      · rintro ⟨hn, hle⟩
        have hnR : (0 : ℝ) < (n : ℝ) := by exact_mod_cast hn
        have hleR : ((t.num : ℝ)) ^ 2 * d ≤ ((t.den : ℝ)) ^ 2 * (n : ℝ) ^ 2 := by
          exact_mod_cast hle
        have h1 : (0 : ℝ) ≤ (t.num : ℝ) * Real.sqrt d := by positivity
        have h2 : (0 : ℝ) ≤ (n : ℝ) * (t.den : ℝ) := by positivity
        rw [← pow_le_pow_iff_left₀ h1 h2 two_ne_zero]
        calc ((t.num : ℝ) * Real.sqrt d) ^ 2 = (t.num : ℝ) ^ 2 * d := by rw [mul_pow, hsq]
          _ ≤ ((t.den : ℝ)) ^ 2 * (n : ℝ) ^ 2 := hleR
          _ = ((n : ℝ) * (t.den : ℝ)) ^ 2 := by ring
      · intro h
        have hpos : (0 : ℝ) < (n : ℝ) * (t.den : ℝ) :=
          lt_of_lt_of_le (by positivity) h
        have hn : (0 : ℤ) < n := by
          by_contra hc
          push_neg at hc
          have hcR : (n : ℝ) ≤ 0 := by exact_mod_cast hc
          nlinarith
        refine ⟨hn, ?_⟩
        have h1 : (0 : ℝ) ≤ (t.num : ℝ) * Real.sqrt d := by positivity
        have hsqle := pow_le_pow_left₀ h1 h 2
        rw [mul_pow, mul_pow, hsq] at hsqle
        have hfin : ((t.num : ℝ)) ^ 2 * d ≤ ((t.den : ℝ)) ^ 2 * (n : ℝ) ^ 2 := by
          nlinarith [hsqle]
        exact_mod_cast hfin
    · rw [if_neg ht]
      push_neg at ht
      have htR : (t.num : ℝ) ≤ 0 := by exact_mod_cast ht
      have hts : (t.num : ℝ) * Real.sqrt d ≤ 0 :=
        mul_nonpos_of_nonpos_of_nonneg htR hs.le
      simp only [Bool.or_eq_true, decide_eq_true_eq]
      constructor
      · rintro (hn | hle)
        · have hnR : (0 : ℝ) ≤ (n : ℝ) := by exact_mod_cast hn
          nlinarith
        · by_cases hn : 0 ≤ n
          · have hnR : (0 : ℝ) ≤ (n : ℝ) := by exact_mod_cast hn
            nlinarith
          · push_neg at hn
            have hnR : (n : ℝ) < 0 := by exact_mod_cast hn
            have hleR : ((t.den : ℝ)) ^ 2 * (n : ℝ) ^ 2 ≤ ((t.num : ℝ)) ^ 2 * d := by
              exact_mod_cast hle
            have h1 : (0 : ℝ) ≤ -((n : ℝ) * (t.den : ℝ)) := by nlinarith
            have h2 : (0 : ℝ) ≤ -((t.num : ℝ) * Real.sqrt d) := by linarith
            have key : -((n : ℝ) * (t.den : ℝ)) ≤ -((t.num : ℝ) * Real.sqrt d) := by
              rw [← pow_le_pow_iff_left₀ h1 h2 two_ne_zero]
              calc (-((n : ℝ) * (t.den : ℝ))) ^ 2
                  = ((t.den : ℝ)) ^ 2 * (n : ℝ) ^ 2 := by ring
                _ ≤ ((t.num : ℝ)) ^ 2 * d := hleR
                _ = (-((t.num : ℝ) * Real.sqrt d)) ^ 2 := by
                    rw [neg_sq, mul_pow, hsq]
            linarith
      · intro h
        by_cases hn : 0 ≤ n
        · exact Or.inl hn
        · push_neg at hn
          right
          have hnR : (n : ℝ) < 0 := by exact_mod_cast hn
          have h1 : (0 : ℝ) ≤ -((n : ℝ) * (t.den : ℝ)) := by nlinarith
          have hneg : -((n : ℝ) * (t.den : ℝ)) ≤ -((t.num : ℝ) * Real.sqrt d) := by
            linarith
          have hsqle := pow_le_pow_left₀ h1 hneg 2
          rw [neg_sq, neg_sq, mul_pow, mul_pow, hsq] at hsqle
          have hfin : ((t.den : ℝ)) ^ 2 * (n : ℝ) ^ 2 ≤ ((t.num : ℝ)) ^ 2 * d := by
            nlinarith [hsqle]
          exact_mod_cast hfin

theorem effNum_pos_iff (n d : ℤ) (hd : 0 ≤ d) :
    0 < effNum n d ↔ (0 : ℝ) < (if d = 0 then (0 : ℝ) else (n : ℝ) / Real.sqrt d) := by
  unfold effNum
  by_cases h0 : d = 0
  · simp [h0]
  · have hdR : (0 : ℝ) < (d : ℝ) := by exact_mod_cast lt_of_le_of_ne hd (Ne.symm h0)
    have hs := Real.sqrt_pos.mpr hdR
    rw [if_neg h0, if_neg h0, lt_div_iff₀ hs, zero_mul]
    exact ⟨fun h => by exact_mod_cast h, fun h => by exact_mod_cast h⟩

theorem effNum_neg_iff (n d : ℤ) (hd : 0 ≤ d) :
    effNum n d < 0 ↔ (if d = 0 then (0 : ℝ) else (n : ℝ) / Real.sqrt d) < 0 := by
  unfold effNum
  by_cases h0 : d = 0
  · simp [h0]
  · have hdR : (0 : ℝ) < (d : ℝ) := by exact_mod_cast lt_of_le_of_ne hd (Ne.symm h0)
    have hs := Real.sqrt_pos.mpr hdR
    rw [if_neg h0, if_neg h0, div_lt_iff₀ hs, zero_mul]
    exact ⟨fun h => by exact_mod_cast h, fun h => by exact_mod_cast h⟩

theorem effNum_zero_iff (n d : ℤ) (hd : 0 ≤ d) :
    effNum n d = 0 ↔ (if d = 0 then (0 : ℝ) else (n : ℝ) / Real.sqrt d) = 0 := by
  unfold effNum
  by_cases h0 : d = 0
  · simp [h0]
  · have hdR : (0 : ℝ) < (d : ℝ) := by exact_mod_cast lt_of_le_of_ne hd (Ne.symm h0)
    have hs := Real.sqrt_pos.mpr hdR
    rw [if_neg h0, if_neg h0, div_eq_zero_iff]
    constructor
    · intro h
      exact Or.inl (by exact_mod_cast h)
    · rintro (h | h)
      · exact_mod_cast h
      · exact absurd h (ne_of_gt hs)

theorem score_lt_of_pos (n1 d1 n2 d2 : ℤ) (h1 : 0 < d1) (h2 : 0 < d2)
    (hn1 : 0 < n1) (hn2 : 0 < n2) :
    ((n2 : ℝ) / Real.sqrt d2 < (n1 : ℝ) / Real.sqrt d1 ↔ n2 ^ 2 * d1 < n1 ^ 2 * d2) := by
  have h1R : (0 : ℝ) < (d1 : ℝ) := by exact_mod_cast h1
  have h2R : (0 : ℝ) < (d2 : ℝ) := by exact_mod_cast h2
  have hs1 := Real.sqrt_pos.mpr h1R
  have hs2 := Real.sqrt_pos.mpr h2R
  have hn1R : (0 : ℝ) < (n1 : ℝ) := by exact_mod_cast hn1
  have hn2R : (0 : ℝ) < (n2 : ℝ) := by exact_mod_cast hn2
  rw [div_lt_div_iff₀ hs2 hs1,
      ← pow_lt_pow_iff_left₀ (by positivity : (0:ℝ) ≤ (n2 : ℝ) * Real.sqrt d1)
        (by positivity : (0:ℝ) ≤ (n1 : ℝ) * Real.sqrt d2) two_ne_zero,
      mul_pow, mul_pow, Real.sq_sqrt h1R.le, Real.sq_sqrt h2R.le]
  constructor
  · intro h
    exact_mod_cast h
  · intro h
    exact_mod_cast h

theorem scoreGtD_iff (n1 d1 n2 d2 : ℤ) (hd1 : 0 ≤ d1) (hd2 : 0 ≤ d2) :
    scoreGtD n1 d1 n2 d2 = true ↔
      (if d2 = 0 then (0 : ℝ) else (n2 : ℝ) / Real.sqrt d2)
        < (if d1 = 0 then (0 : ℝ) else (n1 : ℝ) / Real.sqrt d1) := by
  unfold scoreGtD
  rcases lt_trichotomy (effNum n1 d1) 0 with he1 | he1 | he1
  · rw [if_neg (by omega), if_neg (by omega)]
    simp only [Bool.and_eq_true, decide_eq_true_eq]
    have hs1neg := (effNum_neg_iff n1 d1 hd1).mp he1
    have hd1ne : d1 ≠ 0 := by
      intro hc
      rw [effNum, if_pos hc] at he1
      omega
    have hd1pos : (0 : ℤ) < d1 := lt_of_le_of_ne hd1 (Ne.symm hd1ne)
    have he1n : effNum n1 d1 = n1 := by rw [effNum, if_neg hd1ne]
    rw [he1n] at he1 ⊢
    constructor
    · rintro ⟨he2, hlt⟩
      have hd2ne : d2 ≠ 0 := by
        intro hc
        rw [effNum, if_pos hc] at he2
        omega
      have hd2pos : (0 : ℤ) < d2 := lt_of_le_of_ne hd2 (Ne.symm hd2ne)
      have he2n : effNum n2 d2 = n2 := by rw [effNum, if_neg hd2ne]
      rw [he2n] at he2 hlt
      rw [if_neg hd2ne, if_neg hd1ne]
      -- both negative; compare via the negated positive scores
      have key := (score_lt_of_pos (-n2) d2 (-n1) d1 hd2pos hd1pos
        (by omega) (by omega)).mpr
      have harg : (-n1 : ℤ) ^ 2 * d2 < (-n2 : ℤ) ^ 2 * d1 := by
        have e1 : (-n1 : ℤ) ^ 2 = n1 ^ 2 := by ring
        have e2 : (-n2 : ℤ) ^ 2 = n2 ^ 2 := by ring
        rw [e1, e2]
        exact hlt
      have := key harg
      push_cast at this
      have hfin : (n2 : ℝ) / Real.sqrt d2 < (n1 : ℝ) / Real.sqrt d1 := by
        have := neg_lt_neg this
        rw [neg_div, neg_div, neg_neg, neg_neg] at this
        linarith [this]
      exact hfin
    · intro hlt
      rw [if_neg hd1ne] at hlt
      -- the rhs score is negative, so the lhs score is negative too
      have hs2neg : (if d2 = 0 then (0 : ℝ) else (n2 : ℝ) / Real.sqrt d2) < 0 := by
        rw [if_neg hd1ne] at hs1neg
        exact lt_trans hlt hs1neg
      have he2 : effNum n2 d2 < 0 := (effNum_neg_iff n2 d2 hd2).mpr hs2neg
      have hd2ne : d2 ≠ 0 := by
        intro hc
        rw [effNum, if_pos hc] at he2
        omega
      have hd2pos : (0 : ℤ) < d2 := lt_of_le_of_ne hd2 (Ne.symm hd2ne)
      have he2n : effNum n2 d2 = n2 := by rw [effNum, if_neg hd2ne]
      rw [he2n] at he2
      refine ⟨by rw [he2n]; exact he2, ?_⟩
      rw [he2n]
      rw [if_neg hd2ne] at hs2neg hlt
      have key := (score_lt_of_pos (-n2) d2 (-n1) d1 hd2pos hd1pos
        (by omega) (by omega)).mp
      have harg : (-(n1 : ℝ)) / Real.sqrt d1 < (-(n2 : ℝ)) / Real.sqrt d2 := by
        rw [neg_div, neg_div]
        linarith
      have := key (by push_cast; exact harg)
      have e1 : (-n1 : ℤ) ^ 2 = n1 ^ 2 := by ring
      have e2 : (-n2 : ℤ) ^ 2 = n2 ^ 2 := by ring
      rw [e1, e2] at this
      exact this
  · rw [if_neg (by omega), if_pos he1]
    simp only [decide_eq_true_eq]
    have hs1zero := (effNum_zero_iff n1 d1 hd1).mp he1
    rw [hs1zero]
    exact effNum_neg_iff n2 d2 hd2
  · rw [if_pos he1]
    simp only [Bool.or_eq_true, Bool.and_eq_true, decide_eq_true_eq]
    have hs1pos := (effNum_pos_iff n1 d1 hd1).mpr
    have hs1pos' := (effNum_pos_iff n1 d1 hd1).mp he1
    have hd1ne : d1 ≠ 0 := by
      intro hc
      rw [effNum, if_pos hc] at he1
      omega
    have hd1pos : (0 : ℤ) < d1 := lt_of_le_of_ne hd1 (Ne.symm hd1ne)
    have he1n : effNum n1 d1 = n1 := by rw [effNum, if_neg hd1ne]
    constructor
    · rintro (he2 | ⟨he2, hlt⟩)
      · -- lhs score nonpositive, rhs positive
        rcases lt_or_eq_of_le he2 with he2' | he2'
        · have := (effNum_neg_iff n2 d2 hd2).mp he2'
          linarith
        · have := (effNum_zero_iff n2 d2 hd2).mp he2'
          rw [this]
          exact hs1pos'
      · have hd2ne : d2 ≠ 0 := by
          intro hc
          rw [effNum, if_pos hc] at he2
          omega
        have hd2pos : (0 : ℤ) < d2 := lt_of_le_of_ne hd2 (Ne.symm hd2ne)
        have he2n : effNum n2 d2 = n2 := by rw [effNum, if_neg hd2ne]
        rw [he2n] at he2
        rw [he1n] at he1
        rw [he1n, he2n] at hlt
        rw [if_neg hd2ne, if_neg hd1ne]
        exact (score_lt_of_pos n1 d1 n2 d2 hd1pos hd2pos he1 he2).mpr hlt
    · intro hlt
      by_cases he2 : effNum n2 d2 ≤ 0
      · exact Or.inl he2
      · push_neg at he2
        right
        refine ⟨he2, ?_⟩
        have hd2ne : d2 ≠ 0 := by
          intro hc
          rw [effNum, if_pos hc] at he2
          omega
        have hd2pos : (0 : ℤ) < d2 := lt_of_le_of_ne hd2 (Ne.symm hd2ne)
        have he2n : effNum n2 d2 = n2 := by rw [effNum, if_neg hd2ne]
        rw [he2n] at he2 ⊢
        rw [he1n] at he1 ⊢
        rw [if_neg hd2ne, if_neg hd1ne] at hlt
        exact (score_lt_of_pos n1 d1 n2 d2 hd1pos hd2pos he1 he2).mp hlt

/-- `t ≤ 1` read off the normalised representation. -/
theorem rat_le_one_iff (t : ℚ) : t.num ≤ (t.den : ℤ) ↔ t ≤ 1 := by
  rw [Rat.le_def]
  norm_num

theorem scoreGe_iff (n a b : ℤ) (t : ℚ) (ha : 0 ≤ a) (hb : 0 ≤ b) :
    scoreGe n a b t = true ↔
      (t : ℝ) ≤ (if b = 0 then (1 : ℝ)
        else if a * b = 0 then (0 : ℝ)
        else (n : ℝ) / Real.sqrt ((a * b : ℤ) : ℝ)) := by
  unfold scoreGe
  by_cases hb0 : b = 0
  · rw [if_pos hb0, if_pos hb0]
    simp only [decide_eq_true_eq]
    constructor
    · intro h
      have ht : t ≤ 1 := (rat_le_one_iff t).mp h
      exact_mod_cast ht
    · intro h
      have ht : t ≤ 1 := by exact_mod_cast h
      exact (rat_le_one_iff t).mpr ht
  · rw [if_neg hb0, if_neg hb0]
    exact scoreGeD_iff n (a * b) t (mul_nonneg ha hb)

theorem scoreGt_iff (n1 a1 n2 a2 b : ℤ) (h1 : 0 ≤ a1) (h2 : 0 ≤ a2) (hb : 0 ≤ b) :
    scoreGt n1 a1 n2 a2 b = true ↔
      (if b = 0 then (1 : ℝ) else if a2 * b = 0 then (0 : ℝ)
        else (n2 : ℝ) / Real.sqrt ((a2 * b : ℤ) : ℝ))
      < (if b = 0 then (1 : ℝ) else if a1 * b = 0 then (0 : ℝ)
        else (n1 : ℝ) / Real.sqrt ((a1 * b : ℤ) : ℝ)) := by
  unfold scoreGt
  by_cases hb0 : b = 0
  · rw [if_pos hb0, if_pos hb0, if_pos hb0]
    simp
  · rw [if_neg hb0, if_neg hb0, if_neg hb0]
    exact scoreGtD_iff n1 (a1 * b) n2 (a2 * b) (mul_nonneg h1 hb) (mul_nonneg h2 hb)

/-- `scoreGe` at an alignment of a search image, against the real
`TM_CCOEFF_NORMED` score. -/
theorem scoreGe_iff_ncc (S T : Img) (p : Nat × Nat) (t : ℚ) :
    scoreGe (nccNum S T p.1 p.2) (nccA S T p.1 p.2) (nccB T) t = true ↔
      (t : ℝ) ≤ (if nccB T = 0 then (1 : ℝ)
        else if nccD S T p.1 p.2 = 0 then (0 : ℝ)
        else (nccNum S T p.1 p.2 : ℝ) / Real.sqrt (nccD S T p.1 p.2)) := by
  have h := scoreGe_iff (nccNum S T p.1 p.2) (nccA S T p.1 p.2) (nccB T) t
    (nccA_nonneg S T p.1 p.2) (nccB_nonneg T)
  simpa only [nccD] using h

/-- `scoreGt` between two alignments of a search image, against the real
`TM_CCOEFF_NORMED` scores. -/
theorem scoreGt_iff_ncc (S T : Img) (p q : Nat × Nat) :
    scoreGt (nccNum S T p.1 p.2) (nccA S T p.1 p.2)
        (nccNum S T q.1 q.2) (nccA S T q.1 q.2) (nccB T) = true ↔
      (if nccB T = 0 then (1 : ℝ)
        else if nccD S T q.1 q.2 = 0 then (0 : ℝ)
        else (nccNum S T q.1 q.2 : ℝ) / Real.sqrt (nccD S T q.1 q.2)) <
      (if nccB T = 0 then (1 : ℝ)
        else if nccD S T p.1 p.2 = 0 then (0 : ℝ)
        else (nccNum S T p.1 p.2 : ℝ) / Real.sqrt (nccD S T p.1 p.2)) := by
  have h := scoreGt_iff (nccNum S T p.1 p.2) (nccA S T p.1 p.2)
    (nccNum S T q.1 q.2) (nccA S T q.1 q.2) (nccB T)
    (nccA_nonneg S T p.1 p.2) (nccA_nonneg S T q.1 q.2) (nccB_nonneg T)
  simpa only [nccD] using h

/-! ### `bestLoc` attains the maximal score -/

theorem stepMax_le (S T : Img) (b p : Nat × Nat) :
    ((if nccB T = 0 then (1 : ℝ)
        else if nccD S T b.1 b.2 = 0 then (0 : ℝ)
        else (nccNum S T b.1 b.2 : ℝ) / Real.sqrt (nccD S T b.1 b.2)) ≤
      (if nccB T = 0 then (1 : ℝ)
        else if nccD S T (stepMax S T b p).1 (stepMax S T b p).2 = 0 then (0 : ℝ)
        else (nccNum S T (stepMax S T b p).1 (stepMax S T b p).2 : ℝ)
          / Real.sqrt (nccD S T (stepMax S T b p).1 (stepMax S T b p).2)))
    ∧ ((if nccB T = 0 then (1 : ℝ)
        else if nccD S T p.1 p.2 = 0 then (0 : ℝ)
        else (nccNum S T p.1 p.2 : ℝ) / Real.sqrt (nccD S T p.1 p.2)) ≤
      (if nccB T = 0 then (1 : ℝ)
        else if nccD S T (stepMax S T b p).1 (stepMax S T b p).2 = 0 then (0 : ℝ)
        else (nccNum S T (stepMax S T b p).1 (stepMax S T b p).2 : ℝ)
          / Real.sqrt (nccD S T (stepMax S T b p).1 (stepMax S T b p).2))) := by
  by_cases hgt : scoreGt (nccNum S T p.1 p.2) (nccA S T p.1 p.2)
      (nccNum S T b.1 b.2) (nccA S T b.1 b.2) (nccB T) = true
  · have hs : stepMax S T b p = p := by simp [stepMax, hgt]
    have hlt := (scoreGt_iff_ncc S T p b).mp hgt
    rw [hs]
    exact ⟨le_of_lt hlt, le_refl _⟩
  · have hs : stepMax S T b p = b := by simp [stepMax, hgt]
    have hle : (if nccB T = 0 then (1 : ℝ)
        else if nccD S T p.1 p.2 = 0 then (0 : ℝ)
        else (nccNum S T p.1 p.2 : ℝ) / Real.sqrt (nccD S T p.1 p.2)) ≤
        (if nccB T = 0 then (1 : ℝ)
          else if nccD S T b.1 b.2 = 0 then (0 : ℝ)
          else (nccNum S T b.1 b.2 : ℝ) / Real.sqrt (nccD S T b.1 b.2)) := by
      by_contra hc
      push_neg at hc
      exact hgt ((scoreGt_iff_ncc S T p b).mpr hc)
    rw [hs]
    exact ⟨le_refl _, hle⟩

theorem foldl_stepMax_le (S T : Img) (l : List (Nat × Nat)) (init : Nat × Nat) :
    ∀ q ∈ init :: l,
      (if nccB T = 0 then (1 : ℝ)
        else if nccD S T q.1 q.2 = 0 then (0 : ℝ)
        else (nccNum S T q.1 q.2 : ℝ) / Real.sqrt (nccD S T q.1 q.2)) ≤
      (if nccB T = 0 then (1 : ℝ)
        else if nccD S T (l.foldl (stepMax S T) init).1 (l.foldl (stepMax S T) init).2 = 0
        then (0 : ℝ)
        else (nccNum S T (l.foldl (stepMax S T) init).1 (l.foldl (stepMax S T) init).2 : ℝ)
          / Real.sqrt (nccD S T (l.foldl (stepMax S T) init).1
              (l.foldl (stepMax S T) init).2)) := by
  induction l generalizing init with
  | nil =>
    intro q hq
    rcases List.mem_cons.mp hq with rfl | h
    · exact le_refl _
    · cases h
  | cons a l ih =>
    intro q hq
    rw [List.foldl_cons]
    have hstep := stepMax_le S T init a
    rcases List.mem_cons.mp hq with hqe | hq'
    · rw [hqe]
      exact le_trans hstep.1 (ih (stepMax S T init a) _ (List.mem_cons_self _ _))
    · rcases List.mem_cons.mp hq' with hqe | hq''
      · rw [hqe]
        exact le_trans hstep.2 (ih (stepMax S T init a) _ (List.mem_cons_self _ _))
      · exact ih (stepMax S T init a) q (List.mem_cons_of_mem _ hq'')

theorem bestLoc_is_max (S T : Img) :
    ∀ q ∈ alignments S T,
      (if nccB T = 0 then (1 : ℝ)
        else if nccD S T q.1 q.2 = 0 then (0 : ℝ)
        else (nccNum S T q.1 q.2 : ℝ) / Real.sqrt (nccD S T q.1 q.2)) ≤
      (if nccB T = 0 then (1 : ℝ)
        else if nccD S T (bestLoc S T).1 (bestLoc S T).2 = 0 then (0 : ℝ)
        else (nccNum S T (bestLoc S T).1 (bestLoc S T).2 : ℝ)
          / Real.sqrt (nccD S T (bestLoc S T).1 (bestLoc S T).2)) := by
  intro q hq
  exact foldl_stepMax_le S T (alignments S T) (0, 0) q (List.mem_cons_of_mem _ hq)

/-! ### Exact copies score exactly the template variance -/

theorem exactCopy_sums (S T : Img) (ox oy : Nat) (h : exactCopyAt S T ox oy) :
    sumP S T ox oy = sumT T ∧ sumPP S T ox oy = sumTT T ∧ sumTP S T ox oy = sumTT T := by
  obtain ⟨hh, hw, hpx⟩ := h
  have hmem : ∀ p ∈ grid T.h T.w, S.px (oy + p.1) (ox + p.2) = T.px p.1 p.2 := by
    intro p hp
    rw [grid, Finset.mem_product, Finset.mem_range, Finset.mem_range] at hp
    exact hpx p.1 hp.1 p.2 hp.2
  refine ⟨?_, ?_, ?_⟩
  · exact Finset.sum_congr rfl (fun p hp => hmem p hp)
  · refine Finset.sum_congr rfl (fun p hp => ?_)
    show S.px (oy + p.1) (ox + p.2) ^ 2 = T.px p.1 p.2 ^ 2
    rw [hmem p hp]
  · refine Finset.sum_congr rfl (fun p hp => ?_)
    show T.px p.1 p.2 * S.px (oy + p.1) (ox + p.2) = T.px p.1 p.2 ^ 2
    rw [hmem p hp]
    ring

theorem exactCopy_ncc (S T : Img) (ox oy : Nat) (h : exactCopyAt S T ox oy) :
    nccNum S T ox oy = nccB T ∧ nccA S T ox oy = nccB T := by
  obtain ⟨e1, e2, e3⟩ := exactCopy_sums S T ox oy h
  unfold nccNum nccA nccB
  rw [e1, e2, e3]
  constructor <;> ring

/-- At an exact copy of the template, the threshold test passes for any
threshold at most 1: a non-constant template scores exactly 1 there, and a
zero-variance template scores 1 everywhere. -/
theorem scoreGe_exactCopy (S T : Img) (ox oy : Nat) (h : exactCopyAt S T ox oy)
    (t : ℚ) (ht : t ≤ 1) :
    scoreGe (nccNum S T ox oy) (nccA S T ox oy) (nccB T) t = true := by
  obtain ⟨e1, e2⟩ := exactCopy_ncc S T ox oy h
  rw [e1, e2]
  unfold scoreGe
  by_cases hB : nccB T = 0
  · rw [if_pos hB]
    simp only [decide_eq_true_eq]
    exact (rat_le_one_iff t).mpr ht
  · rw [if_neg hB]
    have hBpos : 0 < nccB T := lt_of_le_of_ne (nccB_nonneg T) (Ne.symm hB)
    unfold scoreGeD
    rw [if_neg (mul_ne_zero hB hB)]
    by_cases htn : 0 < t.num
    · rw [if_pos htn]
      simp only [Bool.and_eq_true, decide_eq_true_eq]
      refine ⟨hBpos, ?_⟩
      have hnd : t.num ≤ (t.den : ℤ) := (rat_le_one_iff t).mpr ht
      have hsq : t.num ^ 2 ≤ (t.den : ℤ) ^ 2 := by nlinarith
      nlinarith [mul_nonneg (sub_nonneg.mpr hsq) (sq_nonneg (nccB T))]
    · rw [if_neg htn]
      simp only [Bool.or_eq_true, decide_eq_true_eq]
      exact Or.inl (le_of_lt hBpos)

/-! ### Unfolding `findTemplate` on present inputs -/

theorem findTemplate_some_some (s t : Img) (th : ℚ) :
    findTemplate (some s) (some t) th =
      if t.h > s.h ∨ t.w > s.w then none
      else if scoreGe (nccNum s t (bestLoc s t).1 (bestLoc s t).2)
          (nccA s t (bestLoc s t).1 (bestLoc s t).2) (nccB t) th
        then some ((bestLoc s t).1 + t.w / 2, (bestLoc s t).2 + t.h / 2)
        else none := rfl

/-! ### Blank frames never match -/

theorem preprocess_blank_px (h w i j : Nat) :
    (preprocessImage (blankFrame h w)).px i j = 0 := by
  have h1 : ∀ a b : Nat, (bgr2gray (blankFrame h w)).px a b = 0 := by
    intro a b
    show rdiv (299 * 0 + 587 * 0 + 114 * 0) 1000 = 0
    decide
  show rdiv ((Finset.range 5).sum fun a => (Finset.range 5).sum fun b =>
      gauss5 a * gauss5 b * (bgr2gray (blankFrame h w)).px
        (reflect101 h ((i : Int) + (a : Int) - 2))
        (reflect101 w ((j : Int) + (b : Int) - 2))) 256 = 0
  have h2 : ((Finset.range 5).sum fun a => (Finset.range 5).sum fun b =>
      gauss5 a * gauss5 b * (bgr2gray (blankFrame h w)).px
        (reflect101 h ((i : Int) + (a : Int) - 2))
        (reflect101 w ((j : Int) + (b : Int) - 2))) = 0 := by
    apply Finset.sum_eq_zero
    intro a _
    apply Finset.sum_eq_zero
    intro b _
    rw [h1]
    ring
  rw [h2]
  decide

theorem sumZero_ncc (S T : Img) (hS : ∀ i j, S.px i j = 0) (x y : Nat) :
    nccNum S T x y = 0 ∧ nccA S T x y = 0 := by
  have hp : sumP S T x y = 0 := Finset.sum_eq_zero (fun p _ => hS _ _)
  have hpp : sumPP S T x y = 0 := Finset.sum_eq_zero (fun p _ => by
    show S.px (y + p.1) (x + p.2) ^ 2 = 0
    rw [hS]
    ring)
  have htp : sumTP S T x y = 0 := Finset.sum_eq_zero (fun p _ => by
    show T.px p.1 p.2 * S.px (y + p.1) (x + p.2) = 0
    rw [hS]
    ring)
  unfold nccNum nccA
  rw [hp, hpp, htp]
  constructor <;> ring

/-- On an all-zero search image every window has zero variance, so a
template of nonzero variance never clears a positive threshold (a
zero-variance template, by contrast, scores 1 everywhere). -/
theorem findTemplate_zero_screen (P T : Img) (hP : ∀ i j, P.px i j = 0)
    (hB : nccB T ≠ 0) (t : ℚ) (ht : 0 < t.num) :
    findTemplate (some P) (some T) t = none := by
  rw [findTemplate_some_some]
  by_cases hsz : T.h > P.h ∨ T.w > P.w
  · rw [if_pos hsz]
  · rw [if_neg hsz]
    obtain ⟨hn, ha⟩ := sumZero_ncc P T hP (bestLoc P T).1 (bestLoc P T).2
    have hge : scoreGe (nccNum P T (bestLoc P T).1 (bestLoc P T).2)
        (nccA P T (bestLoc P T).1 (bestLoc P T).2) (nccB T) t = false := by
      rw [hn, ha]
      unfold scoreGe
      rw [if_neg hB]
      unfold scoreGeD
      rw [zero_mul, if_pos rfl]
      simp only [decide_eq_false_iff_not, not_le]
      exact ht
    rw [hge]
    simp

/-- A blank frame triggers no UI rule, provided the rule's template (when
loaded) has nonzero variance. -/
theorem ruleHit_blank (ui : List (String × Img)) (h w : Nat) (name : String)
    (hT : ∀ T, tget ui name = some T → nccB T ≠ 0) :
    ruleHit ui (preprocessImage (blankFrame h w)) name = false := by
  unfold ruleHit
  cases htget : tget ui name with
  | none => rfl
  | some T =>
    show (findTemplate (some (preprocessImage (blankFrame h w))) (some T) rat07).isSome
      = false
    rw [findTemplate_zero_screen _ T (fun i j => preprocess_blank_px h w i j)
      (hT T htget) rat07 (by decide)]
    rfl

/-! ### Unfolding the analysis result -/

set_option maxRecDepth 40000 in
theorem analyze_cards_eq (vs : VisionSystem) (image_np : Frame) :
    (analyze_battlefield vs image_np).1.cards_in_hand =
      (if (handCrop image_np).h = 0 ∨ (handCrop image_np).w = 0 then []
       else vs.card_templates.filterMap (fun ct =>
         (findTemplate (some (handCrop image_np)) (some ct.2) rat085).map (fun q =>
           ⟨ct.1, (q.1 + hand_roi.1, q.2 + hand_roi.2.1), 3, "unit"⟩))) := rfl

set_option maxRecDepth 40000 in
theorem analyze_units_eq (vs : VisionSystem) (image_np : Frame) :
    (analyze_battlefield vs image_np).1.opponent_units =
      (if (enemyCrop image_np).h = 0 ∨ (enemyCrop image_np).w = 0 then []
       else vs.enemy_unit_templates.filterMap (fun ut =>
         (findTemplate (some (enemyCrop image_np)) (some ut.2) rat085).map (fun q =>
           ⟨ut.1, (q.1 + enemy_field_roi.1, q.2 + enemy_field_roi.2.1), 100,
             "unit"⟩))) := rfl

/-! ### Concrete images and frames used by the closed theorems -/

/-- A 1×4 search row `[0, 255, 0, 255]`: it contains two exact copies of
`ceT`, at offsets 0 and 2. -/
def ceS : Img := { h := 1, w := 4, px := fun _ j => if j % 2 = 1 then 255 else 0 }

/-- A 1×2 template row `[0, 255]`. -/
def ceT : Img := { h := 1, w := 2, px := fun _ j => if j = 1 then 255 else 0 }

/-- A constant 1×1 image (a zero-variance template). -/
def ceS1 : Img := { h := 1, w := 1, px := fun _ _ => 5 }

/-- A 1×3 frame whose preprocessed row `[32, 64, 96]` is non-constant. -/
def wFrame3 : Frame :=
  { h := 1, w := 3, px := fun _ j => if j = 2 then (255, 255, 255) else (0, 0, 0) }

/-- A UI store whose battle-indicator and play-button templates both match
`wFrame3` exactly. -/
def wUI : List (String × Img) :=
  [("Battle Indicator", preprocessImage wFrame3), ("Play Button", preprocessImage wFrame3)]

/-- A 1052×51 frame with a single bright pixel inside the hand ROI, whose
hand crop is a non-constant 2×1 image. -/
def wFrameH : Frame :=
  { h := 1052, w := 51,
    px := fun i j => if i = 1051 ∧ j = 50 then (255, 255, 255) else (0, 0, 0) }

/-- A 152×1 frame with a single bright pixel inside the enemy-field ROI,
whose enemy crop is a non-constant 2×1 image. -/
def wFrameE : Frame :=
  { h := 152, w := 1,
    px := fun i j => if i = 151 ∧ j = 0 then (255, 255, 255) else (0, 0, 0) }

/-- The vision-system state holding one card template equal to the hand
crop of `wFrameH`. -/
def wVSH : VisionSystem := ⟨none, [("Wcard", handCrop wFrameH)], [], []⟩

/-- The vision-system state holding one enemy-unit template equal to the
enemy crop of `wFrameE`. -/
def wVSE : VisionSystem := ⟨none, [], [], [("Wunit", enemyCrop wFrameE)]⟩

/-! ### The claims -/

/-- Claim C1, counterexample to the claim as stated: `ceS` contains an
exact unoccluded copy of `ceT` at offset `(2, 0)` and the threshold `1`
is ≤ 1.0, yet `find` returns `(1, 0)` — the centre of the *first* exact
copy in scan order — which differs from `(2 + w/2, 0 + h/2) = (3, 0)`. -/
theorem find_exact_copy_counterexample :
    exactCopyAt ceS ceT 2 0 ∧ (1 : ℚ) ≤ 1 ∧
      findTemplate (some ceS) (some ceT) 1 = some (1, 0) ∧
      ((1, 0) : Nat × Nat) ≠ (2 + ceT.w / 2, 0 + ceT.h / 2) :=
  ⟨by decide, le_refl 1, by decide, by decide⟩

/-- Claim C1 (amended): for `T` fitting inside `S`, (i) if some valid
alignment's score clears the threshold then `find` returns the centre
`best_top_left + template_dimensions / 2` of the first maximal-score
alignment in scan order (the second conclusion certifies that this
alignment maximises the real `TM_CCOEFF_NORMED` score — 1 everywhere for
a zero-variance template, else the flat-window-guarded
`nccNum / √(nccA·nccB)` — over all valid alignments); (ii) if no
alignment clears the threshold the result is "not found"; (iii) in
particular, when `S` contains an exact unoccluded copy of `T` at
`(ox, oy)`, the threshold is ≤ 1.0, and `(ox, oy)` is the first maximal
alignment in scan order, `find` returns `(ox + width/2, oy + height/2)`. -/
theorem find_center_of_max_score (S T : Img) (t : ℚ)
    (hh : T.h ≤ S.h) (hw : T.w ≤ S.w) :
    ((∃ p ∈ alignments S T,
        scoreGe (nccNum S T p.1 p.2) (nccA S T p.1 p.2) (nccB T) t = true) →
      findTemplate (some S) (some T) t =
        some ((bestLoc S T).1 + T.w / 2, (bestLoc S T).2 + T.h / 2) ∧
      ∀ p ∈ alignments S T,
        (if nccB T = 0 then (1 : ℝ)
          else if nccD S T p.1 p.2 = 0 then (0 : ℝ)
          else (nccNum S T p.1 p.2 : ℝ) / Real.sqrt (nccD S T p.1 p.2)) ≤
        (if nccB T = 0 then (1 : ℝ)
          else if nccD S T (bestLoc S T).1 (bestLoc S T).2 = 0 then (0 : ℝ)
          else (nccNum S T (bestLoc S T).1 (bestLoc S T).2 : ℝ)
            / Real.sqrt (nccD S T (bestLoc S T).1 (bestLoc S T).2)))
    ∧ ((∀ p ∈ alignments S T,
        scoreGe (nccNum S T p.1 p.2) (nccA S T p.1 p.2) (nccB T) t = false) →
      findTemplate (some S) (some T) t = none)
    ∧ (∀ ox oy, exactCopyAt S T ox oy → t ≤ 1 →
        bestLoc S T = (ox, oy) →
        findTemplate (some S) (some T) t = some (ox + T.w / 2, oy + T.h / 2)) := by
  have hsz : ¬ (T.h > S.h ∨ T.w > S.w) := by omega
  refine ⟨?_, ?_, ?_⟩
  · rintro ⟨p, hp, hscore⟩
    have hble := bestLoc_is_max S T p hp
    have hgeR := (scoreGe_iff_ncc S T p t).mp hscore
    have hbest := (scoreGe_iff_ncc S T (bestLoc S T) t).mpr (le_trans hgeR hble)
    constructor
    · rw [findTemplate_some_some, if_neg hsz, hbest]
      simp
    · exact bestLoc_is_max S T
  · intro hall
    have hbfalse := hall (bestLoc S T) (bestLoc_mem S T)
    rw [findTemplate_some_some, if_neg hsz, hbfalse]
    simp
  · intro ox oy hcopy ht hbest
    have hsge := scoreGe_exactCopy S T ox oy hcopy t ht
    rw [findTemplate_some_some, if_neg hsz, hbest]
    dsimp only
    rw [hsge]
    simp

/-- Witness for C1: on `ceS`/`ceT`, threshold 1 finds the centre of the
best alignment, threshold 2 exceeds every score so nothing is found, the
best alignment is the exact copy at `(0, 0)`, and a constant 1×1 template
over itself is found at its centre (OpenCV's all-ones result for
zero-variance templates). -/
theorem find_center_of_max_score_witness :
    findTemplate (some ceS) (some ceT) 1 =
      some ((bestLoc ceS ceT).1 + ceT.w / 2, (bestLoc ceS ceT).2 + ceT.h / 2)
    ∧ findTemplate (some ceS) (some ceT) 2 = none
    ∧ findTemplate (some ceS) (some ceT) 1 = some (0 + ceT.w / 2, 0 + ceT.h / 2)
    ∧ findTemplate (some ceS1) (some ceS1) 1 = some (0 + ceS1.w / 2, 0 + ceS1.h / 2) :=
  ⟨((find_center_of_max_score ceS ceT 1 (by decide) (by decide)).1
      ⟨(0, 0), by decide, by decide⟩).1,
    (find_center_of_max_score ceS ceT 2 (by decide) (by decide)).2.1 (by decide),
    (find_center_of_max_score ceS ceT 1 (by decide) (by decide)).2.2 0 0 (by decide)
      (le_refl 1) (by decide),
    (find_center_of_max_score ceS1 ceS1 1 (by decide) (by decide)).2.2 0 0 (by decide)
      (le_refl 1) (by decide)⟩

/-- Claim C2: classification applies the four UI-template rules in the
fixed order battle indicator, play button, ok button, home button, each at
threshold 0.7, first match winning; in particular a frame matching both
the battle indicator and the play button classifies as `IN_BATTLE`. -/
theorem classify_priority_order (vs : VisionSystem) (image_np : Frame) :
    ((get_current_game_state vs image_np).1 =
      (if ruleHit vs.ui_templates (preprocessImage image_np) "Battle Indicator"
        then GameState.IN_BATTLE
        else if ruleHit vs.ui_templates (preprocessImage image_np) "Play Button"
          then GameState.ON_MENU
        else if ruleHit vs.ui_templates (preprocessImage image_np) "OK Button"
          then GameState.POST_GAME
        else if ruleHit vs.ui_templates (preprocessImage image_np) "Home Button"
          then GameState.ON_MENU
        else GameState.IN_BATTLE))
    ∧ (ruleHit vs.ui_templates (preprocessImage image_np) "Battle Indicator" = true →
        ruleHit vs.ui_templates (preprocessImage image_np) "Play Button" = true →
        (get_current_game_state vs image_np).1 = GameState.IN_BATTLE) := by
  refine ⟨rfl, fun h1 _ => ?_⟩
  rw [show (get_current_game_state vs image_np).1 =
    (if ruleHit vs.ui_templates (preprocessImage image_np) "Battle Indicator"
      then GameState.IN_BATTLE
      else if ruleHit vs.ui_templates (preprocessImage image_np) "Play Button"
        then GameState.ON_MENU
      else if ruleHit vs.ui_templates (preprocessImage image_np) "OK Button"
        then GameState.POST_GAME
      else if ruleHit vs.ui_templates (preprocessImage image_np) "Home Button"
        then GameState.ON_MENU
      else GameState.IN_BATTLE) from rfl, h1]
  rfl

/-- Witness for C2: a frame on which both the battle-indicator and the
play-button templates match classifies as `IN_BATTLE`. -/
theorem classify_priority_order_witness :
    (get_current_game_state ⟨none, [], wUI, []⟩ wFrame3).1 = GameState.IN_BATTLE :=
  (classify_priority_order ⟨none, [], wUI, []⟩ wFrame3).2 (by decide) (by decide)

/-- Claim C3, counterexample to the claim as stated: a constant
(zero-variance) play-button template matches everywhere under
`TM_CCOEFF_NORMED` — OpenCV returns an all-ones score map — so the
all-black frame classifies as `ON_MENU`, not the `IN_BATTLE` fallback the
claim promises for blank frames. -/
theorem classify_blank_counterexample :
    (get_current_game_state ⟨none, [], [("Play Button", ceS1)], []⟩
        (blankFrame 1 1)).1 = GameState.ON_MENU
    ∧ GameState.ON_MENU ≠ GameState.IN_BATTLE :=
  ⟨by decide, by decide⟩

/-- Claim C3 (amended): when none of the four UI templates produces a
confident match at threshold 0.7, classification falls back to
`IN_BATTLE`; in particular every all-black frame (of any size) classifies
as `IN_BATTLE` provided each template loaded under the four rule names has
nonzero variance (a zero-variance template matches everywhere, see the
counterexample). -/
theorem classify_fallback_in_battle :
    (∀ (vs : VisionSystem) (image_np : Frame),
      ruleHit vs.ui_templates (preprocessImage image_np) "Battle Indicator" = false →
      ruleHit vs.ui_templates (preprocessImage image_np) "Play Button" = false →
      ruleHit vs.ui_templates (preprocessImage image_np) "OK Button" = false →
      ruleHit vs.ui_templates (preprocessImage image_np) "Home Button" = false →
      (get_current_game_state vs image_np).1 = GameState.IN_BATTLE)
    ∧ (∀ (vs : VisionSystem) (h w : Nat),
      (∀ T, tget vs.ui_templates "Battle Indicator" = some T → nccB T ≠ 0) →
      (∀ T, tget vs.ui_templates "Play Button" = some T → nccB T ≠ 0) →
      (∀ T, tget vs.ui_templates "OK Button" = some T → nccB T ≠ 0) →
      (∀ T, tget vs.ui_templates "Home Button" = some T → nccB T ≠ 0) →
      (get_current_game_state vs (blankFrame h w)).1 = GameState.IN_BATTLE) := by
  have main : ∀ (vs : VisionSystem) (image_np : Frame),
      ruleHit vs.ui_templates (preprocessImage image_np) "Battle Indicator" = false →
      ruleHit vs.ui_templates (preprocessImage image_np) "Play Button" = false →
      ruleHit vs.ui_templates (preprocessImage image_np) "OK Button" = false →
      ruleHit vs.ui_templates (preprocessImage image_np) "Home Button" = false →
      (get_current_game_state vs image_np).1 = GameState.IN_BATTLE := by
    intro vs image_np h1 h2 h3 h4
    rw [show (get_current_game_state vs image_np).1 =
      (if ruleHit vs.ui_templates (preprocessImage image_np) "Battle Indicator"
        then GameState.IN_BATTLE
        else if ruleHit vs.ui_templates (preprocessImage image_np) "Play Button"
          then GameState.ON_MENU
        else if ruleHit vs.ui_templates (preprocessImage image_np) "OK Button"
          then GameState.POST_GAME
        else if ruleHit vs.ui_templates (preprocessImage image_np) "Home Button"
          then GameState.ON_MENU
        else GameState.IN_BATTLE) from rfl, h1, h2, h3, h4]
    rfl
  exact ⟨main, fun vs h w hbt hpl hok hhm => main vs (blankFrame h w)
    (ruleHit_blank vs.ui_templates h w "Battle Indicator" hbt)
    (ruleHit_blank vs.ui_templates h w "Play Button" hpl)
    (ruleHit_blank vs.ui_templates h w "OK Button" hok)
    (ruleHit_blank vs.ui_templates h w "Home Button" hhm)⟩

/-- Witness for C3: a small frame with an empty UI store matches no rule
and falls back to `IN_BATTLE`, and the blank 720×1280 scenario frame with
the non-constant battle-indicator and play-button templates of `wUI`
loaded classifies as `IN_BATTLE`. -/
theorem classify_fallback_in_battle_witness :
    (get_current_game_state ⟨none, [], [], []⟩ (blankFrame 2 3)).1 = GameState.IN_BATTLE
    ∧ (get_current_game_state ⟨none, [], wUI, []⟩ (blankFrame 1280 720)).1
        = GameState.IN_BATTLE := by
  constructor
  · exact classify_fallback_in_battle.1 ⟨none, [], [], []⟩ (blankFrame 2 3)
      (by decide) (by decide) (by decide) (by decide)
  · refine classify_fallback_in_battle.2 ⟨none, [], wUI, []⟩ 1280 720 ?_ ?_ ?_ ?_
    · intro T hT
      have hT' : some (preprocessImage wFrame3) = some T := hT
      injection hT' with he
      rw [← he]
      decide
    · intro T hT
      have hT' : some (preprocessImage wFrame3) = some T := hT
      injection hT' with he
      rw [← he]
      decide
    · intro T hT
      have hT' : (none : Option Img) = some T := hT
      exact Option.noConfusion hT'
    · intro T hT
      have hT' : (none : Option Img) = some T := hT
      exact Option.noConfusion hT'

/-- Claim C4: every card template the matcher finds at threshold 0.85 in
the hand-ROI crop yields a detected-card entry whose full-frame position
is the ROI-local match plus the hand ROI's top-left offset; the analogous
remapping holds for enemy units and the enemy-field ROI. -/
theorem analyze_roi_remap (vs : VisionSystem) (image_np : Frame) :
    (∀ (nm : String) (tmpl : Img) (p : Nat × Nat),
      (nm, tmpl) ∈ vs.card_templates →
      ¬ ((handCrop image_np).h = 0 ∨ (handCrop image_np).w = 0) →
      findTemplate (some (handCrop image_np)) (some tmpl) rat085 = some p →
      (⟨nm, (p.1 + hand_roi.1, p.2 + hand_roi.2.1), 3, "unit"⟩ : DetectedCard)
        ∈ (analyze_battlefield vs image_np).1.cards_in_hand)
    ∧ (∀ (nm : String) (tmpl : Img) (p : Nat × Nat),
      (nm, tmpl) ∈ vs.enemy_unit_templates →
      ¬ ((enemyCrop image_np).h = 0 ∨ (enemyCrop image_np).w = 0) →
      findTemplate (some (enemyCrop image_np)) (some tmpl) rat085 = some p →
      (⟨nm, (p.1 + enemy_field_roi.1, p.2 + enemy_field_roi.2.1), 100,
          "unit"⟩ : DetectedUnit)
        ∈ (analyze_battlefield vs image_np).1.opponent_units) := by
  constructor
  · intro nm tmpl p hmem hne hfind
    rw [analyze_cards_eq, if_neg hne, List.mem_filterMap]
    refine ⟨(nm, tmpl), hmem, ?_⟩
    dsimp only
    rw [hfind]
    rfl
  · intro nm tmpl p hmem hne hfind
    rw [analyze_units_eq, if_neg hne, List.mem_filterMap]
    refine ⟨(nm, tmpl), hmem, ?_⟩
    dsimp only
    rw [hfind]
    rfl

/-- Witness for C4: concrete frames whose hand (resp. enemy-field) crop
contains a matching template; the detected entries carry the ROI-offset
remapped positions `(0+50, 1+1050)` and `(0+0, 1+150)`. -/
theorem analyze_roi_remap_witness :
    (⟨"Wcard", (50, 1051), 3, "unit"⟩ : DetectedCard)
      ∈ (analyze_battlefield wVSH wFrameH).1.cards_in_hand
    ∧ (⟨"Wunit", (0, 151), 100, "unit"⟩ : DetectedUnit)
      ∈ (analyze_battlefield wVSE wFrameE).1.opponent_units :=
  ⟨(analyze_roi_remap wVSH wFrameH).1 "Wcard" (handCrop wFrameH) (0, 1)
      (List.mem_cons_self _ _) (by decide) (by decide),
    (analyze_roi_remap wVSE wFrameE).2 "Wunit" (enemyCrop wFrameE) (0, 1)
      (List.mem_cons_self _ _) (by decide) (by decide)⟩

/-- Claim C5: `find` returns "not found" — never an error — when either
input is absent or the template exceeds the search image in height or
width. -/
theorem find_guards_return_none (t : ℚ) :
    (∀ template, findTemplate none template t = none)
    ∧ (∀ screen, findTemplate screen none t = none)
    ∧ (∀ s tm : Img, tm.h > s.h ∨ tm.w > s.w →
        findTemplate (some s) (some tm) t = none) := by
  refine ⟨fun template => ?_, fun screen => ?_, fun s tm hgt => ?_⟩
  · cases template <;> rfl
  · cases screen <;> rfl
  · rw [findTemplate_some_some, if_pos hgt]

/-- Witness for C5: absent inputs and an oversized template all yield
"not found" at threshold 0.8. -/
theorem find_guards_return_none_witness :
    findTemplate none (some ceT) rat08 = none
    ∧ findTemplate (some ceS) none rat08 = none
    ∧ findTemplate (some ceS1) (some ceT) rat08 = none :=
  ⟨(find_guards_return_none rat08).1 (some ceT),
    (find_guards_return_none rat08).2.1 (some ceS),
    (find_guards_return_none rat08).2.2 ceS1 ceT (by decide)⟩

/-- Claim C6: `get_card_coordinates` soft-fails (returns "not found",
never an exception) when no frame has been captured or when no template
exists under the normalized key `replace('_',' ').title()`; otherwise it
preprocesses the latest frame and searches the entire frame at
threshold 0.8. -/
theorem locate_soft_fail (vs : VisionSystem) (card_name : String) :
    (vs.latest_screenshot = none → get_card_coordinates vs card_name = none)
    ∧ (tget vs.card_templates (templateKey card_name) = none →
        get_card_coordinates vs card_name = none)
    ∧ (∀ (shot : Frame) (tmpl : Img), vs.latest_screenshot = some shot →
        tget vs.card_templates (templateKey card_name) = some tmpl →
        get_card_coordinates vs card_name =
          findTemplate (some (preprocessImage shot)) (some tmpl) rat08) := by
  unfold get_card_coordinates
  refine ⟨fun h => by rw [h], fun h => ?_, fun shot tmpl h1 h2 => ?_⟩
  · cases hls : vs.latest_screenshot with
    | none => rfl
    | some shot =>
      show (match tget vs.card_templates (templateKey card_name) with
        | none => none
        | some card_template =>
          findTemplate (some (preprocessImage shot)) (some card_template) rat08) = none
      rw [h]
  · rw [h1]
    show (match tget vs.card_templates (templateKey card_name) with
      | none => none
      | some card_template =>
        findTemplate (some (preprocessImage shot)) (some card_template) rat08)
      = findTemplate (some (preprocessImage shot)) (some tmpl) rat08
    rw [h2]

/-- Witness for C6: `locate "fireball"` before any frame has been captured
returns "not found". -/
theorem locate_soft_fail_witness :
    get_card_coordinates ⟨none, [], [], []⟩ "fireball" = none :=
  (locate_soft_fail ⟨none, [], [], []⟩ "fireball").1 rfl

/-- Claim C7: the enemy-field ROI shares left, top and right with the
battlefield ROI, and its bottom is the battlefield top plus half the
battlefield height (integer division) plus the fixed 50-pixel overlap;
concretely it is `(0, 150, 720, 625)`. -/
theorem enemy_field_roi_spec :
    enemy_field_roi = (battlefield_roi.1, battlefield_roi.2.1, battlefield_roi.2.2.1,
      battlefield_roi.2.1 + (battlefield_roi.2.2.2 - battlefield_roi.2.1) / 2 + 50)
    ∧ enemy_field_roi = (0, 150, 720, 625) := ⟨rfl, rfl⟩

/-- Claim C8: whenever the clamped hand-ROI crop is empty the analysis
returns zero detected cards (and no error — the function is total). -/
theorem analyze_empty_hand_crop (vs : VisionSystem) (image_np : Frame)
    (h : (handCrop image_np).h = 0 ∨ (handCrop image_np).w = 0) :
    (analyze_battlefield vs image_np).1.cards_in_hand = [] := by
  rw [analyze_cards_eq, if_pos h]

/-- Witness for C8: a 1×1 frame has an empty hand crop and yields no
detected cards even with a card template loaded. -/
theorem analyze_empty_hand_crop_witness :
    (analyze_battlefield ⟨none, [("Knight", ceT)], [], []⟩ (blankFrame 1 1)).1.cards_in_hand
      = [] :=
  analyze_empty_hand_crop ⟨none, [("Knight", ceT)], [], []⟩ (blankFrame 1 1) (by decide)

/-- Claim C9: classifying the same frame twice yields the same phase; the
write to the latest-screenshot field between the calls does not change the
result, because the phase depends only on the UI templates and the frame. -/
theorem classify_idempotent (vs : VisionSystem) (image_np : Frame) :
    (get_current_game_state ((get_current_game_state vs image_np).2) image_np).1
      = (get_current_game_state vs image_np).1 := rfl

/-- Claim C10: classification only ever returns `IN_BATTLE`, `ON_MENU` or
`POST_GAME`; the `INITIALIZING` and `STOPPED` members of the enumeration
are unreachable through it. -/
theorem classify_phase_range (vs : VisionSystem) (image_np : Frame) :
    (get_current_game_state vs image_np).1 = GameState.IN_BATTLE
    ∨ (get_current_game_state vs image_np).1 = GameState.ON_MENU
    ∨ (get_current_game_state vs image_np).1 = GameState.POST_GAME := by
  rw [show (get_current_game_state vs image_np).1 =
    (if ruleHit vs.ui_templates (preprocessImage image_np) "Battle Indicator"
      then GameState.IN_BATTLE
      else if ruleHit vs.ui_templates (preprocessImage image_np) "Play Button"
        then GameState.ON_MENU
      else if ruleHit vs.ui_templates (preprocessImage image_np) "OK Button"
        then GameState.POST_GAME
      else if ruleHit vs.ui_templates (preprocessImage image_np) "Home Button"
        then GameState.ON_MENU
      else GameState.IN_BATTLE) from rfl]
  split_ifs <;> simp
